import Mathlib

/-!
A shallow embedding of `src/sqlite_forensics.py` (class `SQLiteForensics`).

Strings are modelled as `List Char`, filesystem paths as an absoluteness flag
plus a component list (`pathlib.Path` keeps a relative input relative, and
`Path.rglob` yields the root joined with the relative location of each match).
File contents and the sqlite engine are modelled per file: a file either opens
as a database (with its integrity verdict, catalog and table contents), fails
at `sqlite3.connect`, or fails at the first `cursor.execute` after a
successful connect.  Each database-touching operation additionally returns a
`ConnTrace` recording whether a connection was opened and whether `conn.close()`
was reached, so that resource-release claims can be stated.
Cryptographic digests are a parameter `DigestFn` (algorithm name ↦ content ↦
digest bytes), exactly the role `hashlib.new(hash_type)` plays; `hexdigest` is
the lowercase hex rendering of those bytes.
-/

/-- A character string (Python `str`), as a list of characters. -/
abbrev Str := List Char

deriving instance DecidableEq for Except

/-- A filesystem path: absoluteness flag plus the list of components.
`Path(p)` keeps the path as given, so a relative input stays relative. -/
structure FsPath where
  isAbs : Bool
  comps : List Str
deriving DecidableEq, Repr

/-- The final component of a relative component list (Python `Path.name`). -/
def lastName (rel : List Str) : Str := rel.getLastD []

/-- The file name of a path (`Path.name`). -/
def fileNameOf (p : FsPath) : Str := lastName p.comps

/-- `root / rel`: how `Path.rglob` forms its results — the root joined with
the relative location of the match. -/
def joinRel (root : FsPath) (rel : List Str) : FsPath :=
  ⟨root.isAbs, root.comps ++ rel⟩

/-- `Path.stem` (line 147 uses `db_path.stem`): the file name with its last
extension removed; a name with no dot, or whose only dot is the leading
character, is its own stem. -/
def stemOf (name : Str) : Str :=
  match (name.reverse.dropWhile (fun c => c ≠ '.')) with
  | [] => name
  | _ :: rest => if rest = [] then name else rest.reverse

/-- The four glob patterns of `find_sqlitedb_files` (line 216), each recorded
as the literal suffix a file name must end with (`*.sqlitedb` matches exactly
the names ending in `.sqlitedb`). -/
def patternSuffixes : List Str :=
  [".sqlitedb".toList, ".sqlite".toList, ".db".toList, ".sqlite3".toList]

/-- Whether a file name matches the glob pattern with the given literal
suffix. -/
def matchesPattern (suf name : Str) : Bool := suf.isSuffixOf name

/-- The error tag used by the generic exception handlers
(`f"Помилка: {str(e)}"`, lines 49 and 77). -/
def errTag : Str := "Помилка: ".toList

/-- The error tag of `export_table_data`
(`f"Помилка експорту: {str(e)}"`, line 156). -/
def exportErrTag : Str := "Помилка експорту: ".toList

/-- One column as reported by `PRAGMA table_info` and stored by
`get_database_info` (lines 105–107): `(cid, name, type, notnull, dflt, pk)`. -/
structure Column where
  cid : Nat
  name : Str
  declType : Str
  notNull : Nat
  dflt : Option Str
  pk : Nat
deriving DecidableEq, Repr

/-- One table of a database as the engine holds it.  `tblError` is set when
per-table statements (`SELECT COUNT(*)`, `PRAGMA table_info`, `SELECT *`)
raise for this table (e.g. a missing virtual-table module), the failure mode
lines 109–110 isolate. -/
structure Table where
  name : Str
  columns : List Column
  rows : List (List Str)
  tblError : Option Str
deriving DecidableEq, Repr

/-- A well-formed database file, as seen through the engine: the first row of
`PRAGMA integrity_check`, the version string, the catalog and the freelist
count. -/
structure Database where
  integrityResult : Str
  version : Str
  tables : List Table
  indexes : List Str
  triggers : List Str
  freelistCount : Nat
deriving DecidableEq, Repr

/-- How sqlite reacts to one file on disk: it opens as a database, or
`sqlite3.connect` itself raises (e.g. the path is a directory), or connect
succeeds lazily and the first `cursor.execute` raises (e.g. not a database
file, encrypted, truncated header). -/
inductive DbFile where
  | ok (db : Database)
  | connectFail (msg : Str)
  | execFail (msg : Str)
deriving DecidableEq, Repr

/-- Whether a connection was opened, and whether `conn.close()` was reached,
during one operation.  The source has no `try/finally` and no context
manager, so `conn.close()` only runs on the straight-line path. -/
structure ConnTrace where
  opened : Bool
  closed : Bool
deriving DecidableEq, Repr

/-- `check_database_integrity` (lines 67–77): connect, run
`PRAGMA integrity_check;`, return its first row verbatim and close; any
exception is caught and returned as `"Помилка: " ++ msg`, skipping the
close. -/
def check_database_integrity (f : DbFile) : Str × ConnTrace :=
  match f with
  | .ok db => (db.integrityResult, ⟨true, true⟩)
  | .connectFail e => (errTag ++ e, ⟨false, false⟩)
  | .execFail e => (errTag ++ e, ⟨true, false⟩)

/-- The value stored in `tables_info[table]` (lines 96–110): the row count
and column list on success, `{'error': str(e)}` when the per-table
statements raise. -/
inductive TableInfo where
  | info (row_count : Nat) (columns : List Column)
  | err (msg : Str)
deriving DecidableEq, Repr

/-- The per-table branch of `get_database_info` (lines 95–110). -/
def tableInfoOf (t : Table) : TableInfo :=
  match t.tblError with
  | some e => .err e
  | none => .info t.rows.length t.columns

/-- The success dictionary of `get_database_info` (lines 122–129). -/
structure DbInfo where
  sqlite_version : Str
  tables_count : Nat
  tables : List Str
  tables_info : List (Str × TableInfo)
  indexes : List Str
  triggers : List Str
deriving DecidableEq, Repr

/-- `get_database_info` (lines 79–131): version, table list, per-table info
(with per-table failures isolated), indexes, triggers; the whole call
degrades to `{'error': str(e)}` when connect or an outer statement raises,
and `conn.close()` (line 120) is skipped on that path. -/
def get_database_info (f : DbFile) : Except Str DbInfo × ConnTrace :=
  match f with
  | .ok db =>
      (.ok { sqlite_version := db.version,
             tables_count := db.tables.length,
             tables := db.tables.map (fun t => t.name),
             tables_info := db.tables.map (fun t => (t.name, tableInfoOf t)),
             indexes := db.indexes,
             triggers := db.triggers }, ⟨true, true⟩)
  | .connectFail e => (.error e, ⟨false, false⟩)
  | .execFail e => (.error e, ⟨true, false⟩)

/-- The fixed note of `search_deleted_records` (line 171). -/
def freeNote : Str :=
  "Для глибокого аналізу використовуйте спеціалізовані інструменти".toList

/-- The result of `search_deleted_records` (lines 158–174). -/
inductive FreeInfo where
  | info (freelist_pages : Nat) (note : Str)
  | err (msg : Str)
deriving DecidableEq, Repr

/-- `search_deleted_records` (lines 158–174): `PRAGMA freelist_count` plus
the fixed advisory note; `{'error': str(e)}` on exception, with the close
(line 168) skipped on that path. -/
def search_deleted_records (f : DbFile) : FreeInfo × ConnTrace :=
  match f with
  | .ok db => (.info db.freelistCount freeNote, ⟨true, true⟩)
  | .connectFail e => (.err e, ⟨false, false⟩)
  | .execFail e => (.err e, ⟨true, false⟩)

/-- The message sqlite raises for `SELECT * FROM` a missing table. -/
def noSuchTableMsg (tname : Str) : Str := "no such table: ".toList ++ tname

/-- The CSV file name of `export_table_data` (line 147):
`f"{db_path.stem}_{table_name}.csv"`. -/
def csvFileName (dbName tname : Str) : Str :=
  stemOf dbName ++ '_' :: (tname ++ ".csv".toList)

/-- The CSV path of `export_table_data` (line 147):
`output_path / f"{db_path.stem}_{table_name}.csv"`. -/
def exportCsvPath (dbPath : FsPath) (tname : Str) (out : FsPath) : FsPath :=
  ⟨out.isAbs, out.comps ++ [csvFileName (fileNameOf dbPath) tname]⟩

/-- The written CSV: its path and its rows (header row included). -/
structure CsvFile where
  path : FsPath
  rows : List (List Str)
deriving DecidableEq, Repr

/-- `export_table_data` (lines 133–156): `SELECT *`, `PRAGMA table_info`,
write the column-name header row then every data row, close, and return the
path; any exception is caught into `"Помилка експорту: " ++ msg`, with
`conn.close()` (line 153) skipped on that path. -/
def export_table_data (dbPath : FsPath) (f : DbFile) (tname : Str)
    (out : FsPath) : Except Str CsvFile × ConnTrace :=
  match f with
  | .connectFail e => (.error (exportErrTag ++ e), ⟨false, false⟩)
  | .execFail e => (.error (exportErrTag ++ e), ⟨true, false⟩)
  | .ok db =>
      match db.tables.find? (fun t => t.name == tname) with
      | none => (.error (exportErrTag ++ noSuchTableMsg tname), ⟨true, false⟩)
      | some t =>
          match t.tblError with
          | some e => (.error (exportErrTag ++ e), ⟨true, false⟩)
          | none =>
              (.ok { path := exportCsvPath dbPath tname out,
                     rows := (t.columns.map (fun c => c.name)) :: t.rows },
               ⟨true, true⟩)

/-- The digest accumulator family behind `hashlib.new(hash_type)`: for each
algorithm name, the digest bytes of a byte string.  Feeding chunks through
`update` amounts to digesting the concatenation of the chunks. -/
abbrev DigestFn := Str → List Nat → List Nat

/-- The lowercase hex alphabet of `hexdigest()`. -/
def hexChars : Str := "0123456789abcdef".toList

/-- One lowercase hex digit. -/
def hexDigit (n : Nat) : Char := hexChars.getD (n % 16) '0'

/-- `hexdigest()` (line 47): two lowercase hex digits per digest byte, high
nibble first. -/
def hexOfBytes (bs : List Nat) : Str :=
  bs.flatMap (fun b => [hexDigit (b / 16), hexDigit b])

/-- The read loop of `calculate_hash` (line 45):
`iter(lambda: f.read(4096), b"")` yields the file in 4096-byte chunks until
the read comes back empty. -/
def readChunks (bs : List Nat) : List (List Nat) :=
  if h : bs = [] then [] else bs.take 4096 :: readChunks (bs.drop 4096)
termination_by bs.length
decreasing_by
  have hpos : 0 < bs.length := List.length_pos.mpr h
  simp only [List.length_drop]
  omega

/-- `hash_func.update(chunk)`: append the chunk to the bytes fed so far. -/
def hashUpdate (fed chunk : List Nat) : List Nat := fed ++ chunk

/-- The bytes the accumulator has been fed after the chunked read loop. -/
def streamedBytes (bs : List Nat) : List Nat :=
  (readChunks bs).foldl hashUpdate []

/-- `calculate_hash` (lines 40–49) on the outcome of opening and reading the
file: the lowercase hex digest of the streamed content, or
`"Помилка: " ++ msg` when the open or a read raises. -/
def calculate_hash (digest : DigestFn) (alg : Str)
    (readRes : Except Str (List Nat)) : Str :=
  match readRes with
  | .ok bs => hexOfBytes (digest alg (streamedBytes bs))
  | .error e => errTag ++ e

/-- The whole-file single-read digest the spec compares against (§4.2,
"chunked streaming hash equals a whole-file digest").  This definition
follows the spec's words, not the source. -/
def wholeFileHash (digest : DigestFn) (alg : Str) (bs : List Nat) : Str :=
  hexOfBytes (digest alg bs)

/-- The filesystem stat attributes `get_file_metadata` reads (lines 53–61);
the three formatted timestamps are kept opaque. -/
structure Stat where
  size : Nat
  created : Str
  modified : Str
  accessed : Str
deriving DecidableEq, Repr

/-- One directory entry under the scanned root: its relative component path
and how the filesystem and the engine react to it — the outcome of
`filepath.stat()`, the outcome of opening and reading its bytes, and how
sqlite sees it. -/
structure Entry where
  rel : List Str
  statRes : Except Str Stat
  readRes : Except Str (List Nat)
  dbRes : DbFile
deriving DecidableEq, Repr

/-- One run of `SQLiteForensics`: the scanned root (`directory_path`), the
output directory, the run timestamp (opaque), and the directory tree under
the root. -/
structure Run where
  root : FsPath
  outDir : FsPath
  now : Str
  entries : List Entry
deriving DecidableEq, Repr

/-- The full path of an entry as `rglob` reports it. -/
def pathOf (run : Run) (e : Entry) : FsPath := joinRel run.root e.rel

/-- The dictionary `get_file_metadata` builds (lines 54–65).  `size_mb`
models `round(bytes/1MB, 2)` as integer hundredths of a megabyte. -/
structure Metadata where
  filename : Str
  full_path : FsPath
  size_bytes : Nat
  size_mb : Nat
  created : Str
  modified : Str
  accessed : Str
  md5 : Str
  sha1 : Str
  sha256 : Str
deriving DecidableEq, Repr

/-- `get_file_metadata` (lines 51–65): `filepath.stat()` is **unguarded**, so
a stat failure propagates out as an exception (`Except.error`); on success
the record is built, each hash field holding whatever `calculate_hash`
returned (a digest or an in-place error string). -/
def get_file_metadata (digest : DigestFn) (run : Run) (e : Entry) :
    Except Str Metadata :=
  match e.statRes with
  | .error m => .error m
  | .ok st =>
      .ok { filename := lastName e.rel,
            full_path := pathOf run e,
            size_bytes := st.size,
            size_mb := st.size * 100 / (1024 * 1024),
            created := st.created,
            modified := st.modified,
            accessed := st.accessed,
            md5 := calculate_hash digest ("md5".toList) e.readRes,
            sha1 := calculate_hash digest ("sha1".toList) e.readRes,
            sha256 := calculate_hash digest ("sha256".toList) e.readRes }

/-- The per-file report dictionary built by `analyze_database`
(lines 176–212). `exported_tables` is present exactly when `'tables' in
db_report['database_info']`, i.e. when `get_database_info` succeeded; each
stored value is the CSV path or the export error string. -/
structure DbReport where
  metadata : Metadata
  integrity : Str
  database_info : Except Str DbInfo
  deleted_records : FreeInfo
  exported_tables : Option (List (Str × Except Str FsPath))
deriving DecidableEq, Repr

/-- The export directory `self.output_dir / 'exported_data'` (line 203). -/
def exportDirOf (run : Run) : FsPath :=
  ⟨run.outDir.isAbs, run.outDir.comps ++ ["exported_data".toList]⟩

/-- `analyze_database` (lines 176–212).  `get_file_metadata` is the only
unguarded step, so its exception is the only way this function raises;
every other capability catches internally and contributes data. -/
def analyze_database (digest : DigestFn) (run : Run) (e : Entry) :
    Except Str DbReport :=
  match get_file_metadata digest run e with
  | .error m => .error m
  | .ok md =>
      let info := (get_database_info e.dbRes).1
      .ok { metadata := md,
            integrity := (check_database_integrity e.dbRes).1,
            database_info := info,
            deleted_records := (search_deleted_records e.dbRes).1,
            exported_tables :=
              match info with
              | .ok i => some (i.tables.map (fun tn =>
                  (tn, ((export_table_data (pathOf run e) e.dbRes tn
                          (exportDirOf run)).1).map (fun c => c.path))))
              | .error _ => none }

/-- One value of the `databases` mapping: a full per-file report, or
`{'error': str(e)}` from the per-file handler (lines 248–254). -/
inductive DbEntry where
  | report (r : DbReport)
  | err (msg : Str)
deriving DecidableEq, Repr

/-- The per-file handler inside `generate_report`'s loop (lines 248–254):
run `analyze_database`, catching any exception into an error entry. -/
def analyzeEntry (digest : DigestFn) (run : Run) (e : Entry) : DbEntry :=
  match analyze_database digest run e with
  | .ok r => .report r
  | .error m => .err m

/-- The `full_report` dictionary (lines 240–246); `databases` keeps the keys
in insertion order, keyed by `str(db_file)`. -/
structure FullReport where
  analysis_date : Str
  directory : FsPath
  output_directory : FsPath
  total_files : Nat
  databases : List (FsPath × DbEntry)
deriving DecidableEq, Repr

/-- The persistent outputs `generate_report` writes at the end of a run: the
JSON snapshot (lines 257–259) and the narrative text report (line 267). -/
inductive WriteEvent where
  | jsonReport (rep : FullReport)
  | textReport (rep : FullReport)
deriving DecidableEq, Repr

/-- `find_sqlitedb_files` (lines 214–220): for each of the four patterns in
order, extend the list with every entry whose file name matches; the
entries carry their on-disk content so later analysis can be expressed. -/
def find_sqlitedb_files (run : Run) : List Entry :=
  patternSuffixes.flatMap (fun pat =>
    run.entries.filter (fun e => matchesPattern pat (lastName e.rel)))

/-- The paths `find_sqlitedb_files` returns, as `rglob` reports them. -/
def findPaths (run : Run) : List FsPath :=
  (find_sqlitedb_files run).map (pathOf run)

/-- `generate_report` (lines 222–269): discover files; when none are found
return immediately with nothing written; otherwise analyze every file into
the `databases` mapping and write the JSON snapshot and the text report. -/
def generate_report (digest : DigestFn) (run : Run) :
    Option FullReport × List WriteEvent :=
  let dbFiles := find_sqlitedb_files run
  if dbFiles.isEmpty then (none, [])
  else
    let rep : FullReport :=
      { analysis_date := run.now,
        directory := run.root,
        output_directory := run.outDir,
        total_files := dbFiles.length,
        databases := dbFiles.map (fun e => (pathOf run e, analyzeEntry digest run e)) }
    (some rep, [.jsonReport rep, .textReport rep])

/-- A two-column `users` table for concrete evaluations. -/
def sampleCols : List Column :=
  [⟨0, "id".toList, "INTEGER".toList, 0, none, 1⟩,
   ⟨1, "name".toList, "TEXT".toList, 0, none, 0⟩]

/-- A `users(id, name)` table holding 3 rows (the spec's §8 scenario). -/
def sampleTable : Table :=
  ⟨"users".toList, sampleCols,
   [["1".toList, "Ann".toList], ["2".toList, "Bob".toList],
    ["3".toList, "Eva".toList]], none⟩

/-- A well-formed sample database whose consistency check passes. -/
def sampleDb : Database := ⟨"ok".toList, "3.45.1".toList, [sampleTable], [], [], 0⟩

/-- Sample stat attributes. -/
def sampleStat : Stat :=
  ⟨4096, "2025-11-07 10:00:00".toList, "2025-11-07 10:00:00".toList,
   "2025-11-07 10:00:00".toList⟩

/-- A healthy sample directory entry named `users.db`. -/
def sampleEntry : Entry :=
  ⟨["users.db".toList], .ok sampleStat, .ok [0, 255], .ok sampleDb⟩

/-- A sample run over an absolute root holding `sampleEntry`. -/
def sampleRun : Run :=
  ⟨⟨true, ["evidence".toList]⟩, ⟨true, ["out".toList]⟩,
   "2025-11-07 12:00:00".toList, [sampleEntry]⟩

/-- A trivial digest family, for concrete evaluations. -/
def zeroDigest : DigestFn := fun _ _ => [0]

/-- Folding `hashUpdate` over a chunk list digests the concatenation. -/
theorem foldl_hashUpdate (l : List (List Nat)) (acc : List Nat) :
    l.foldl hashUpdate acc = acc ++ l.flatten := by
  induction l generalizing acc with
  | nil => simp
  | cons c l ih => simp [hashUpdate, ih, List.append_assoc]

/-- The 4096-byte read loop chunks the content without loss: joining the
chunks gives back the file's bytes. -/
theorem readChunks_flatten (bs : List Nat) : (readChunks bs).flatten = bs := by
  induction bs using readChunks.induct with
  | case1 => simp [readChunks]
  | case2 bs h ih =>
      rw [readChunks, dif_neg h]
      simp only [List.flatten_cons, ih, List.take_append_drop]

/-- The accumulator ends up fed exactly the file's bytes. -/
theorem streamedBytes_eq (bs : List Nat) : streamedBytes bs = bs := by
  rw [streamedBytes, foldl_hashUpdate, List.nil_append, readChunks_flatten]

/-- **C5**: for every file contents and every digest algorithm, the
4096-byte chunked streaming computation of `calculate_hash` returns the same
lowercase hex digest as a whole-file single-read digest of the same
contents, and hashing the same unchanged contents twice yields identical
digests. -/
theorem calculate_hash_chunked_eq_whole (digest : DigestFn) (alg : Str)
    (bs : List Nat) :
    calculate_hash digest alg (.ok bs) = wholeFileHash digest alg bs ∧
    calculate_hash digest alg (.ok bs) = calculate_hash digest alg (.ok bs) := by
  refine ⟨?_, rfl⟩
  simp only [calculate_hash, wholeFileHash, streamedBytes_eq]

/-- Every hex digit produced is drawn from the lowercase hex alphabet. -/
theorem hexDigit_mem (n : Nat) : hexDigit n ∈ hexChars := by
  have hlen : n % 16 < hexChars.length := by
    have : hexChars.length = 16 := by decide
    rw [this]
    exact Nat.mod_lt _ (by omega)
  rw [hexDigit, List.getD_eq_getElem _ _ hlen]
  exact List.getElem_mem hlen

/-- Every character of a rendered digest is a lowercase hex character. -/
theorem hexOfBytes_mem (bs : List Nat) : ∀ c ∈ hexOfBytes bs, c ∈ hexChars := by
  intro c hc
  rw [hexOfBytes, List.mem_flatMap] at hc
  obtain ⟨b, _, hc⟩ := hc
  simp only [List.mem_cons, List.not_mem_nil, or_false] at hc
  rcases hc with h | h
  · rw [h]; exact hexDigit_mem _
  · rw [h]; exact hexDigit_mem _

/-- No string of lowercase hex characters starts with the error tag. -/
theorem hex_not_errTag (s : Str) (hs : ∀ c ∈ s, c ∈ hexChars) :
    ¬ errTag <+: s := by
  intro hpre
  obtain ⟨t, ht⟩ := hpre
  have hmem : 'П' ∈ s := by
    rw [← ht]
    exact List.mem_append_left _ (by decide)
  have := hs _ hmem
  exact absurd this (by decide)

/-- **C9**: every value returned by `calculate_hash` is either a lowercase
hexadecimal digest or an error string beginning with the fixed tag
`"Помилка: "`; since no hex digest starts with that tag, a hash field
holding an error is always distinguishable from a valid digest. -/
theorem calculate_hash_err_distinguishable (digest : DigestFn) (alg : Str)
    (r : Except Str (List Nat)) :
    ((∃ bs, r = .ok bs ∧
        calculate_hash digest alg r = hexOfBytes (digest alg bs) ∧
        (∀ c ∈ calculate_hash digest alg r, c ∈ hexChars) ∧
        ¬ errTag <+: calculate_hash digest alg r) ∨
      (∃ m, r = .error m ∧ calculate_hash digest alg r = errTag ++ m ∧
        errTag <+: calculate_hash digest alg r)) ∧
    (∀ s : Str, (∀ c ∈ s, c ∈ hexChars) → ¬ errTag <+: s) := by
  constructor
  · cases r with
    | ok bs =>
        left
        refine ⟨bs, rfl, ?_, ?_, ?_⟩
        · simp only [calculate_hash, streamedBytes_eq]
        · simp only [calculate_hash]
          exact hexOfBytes_mem _
        · simp only [calculate_hash]
          exact hex_not_errTag _ (hexOfBytes_mem _)
    | error m =>
        right
        exact ⟨m, rfl, rfl, ⟨m, rfl⟩⟩
  · exact hex_not_errTag

/-- Witness for C9 at a concrete input. -/
theorem calculate_hash_err_distinguishable_witness :
    ¬ errTag <+: ("ab".toList) :=
  (calculate_hash_err_distinguishable zeroDigest [] (.ok [])).2
    ("ab".toList) (by decide)

/-- **C2**: `check_database_integrity` returns exactly the canonical `"ok"`
token iff the engine's consistency check reported `ok`; an openable
database's verdict is the engine's first `integrity_check` row verbatim; a
file that cannot be opened (at connect or at the first statement) yields the
error-wrapped string `"Помилка: " ++ msg`, which carries the error tag and
is therefore distinguishable from any engine anomaly description that does
not itself start with that tag. -/
theorem check_database_integrity_classification (f : DbFile) :
    (∀ db, f = .ok db →
        ((check_database_integrity f).1 = "ok".toList ↔
          db.integrityResult = "ok".toList)) ∧
    (∀ db, f = .ok db →
        (check_database_integrity f).1 = db.integrityResult) ∧
    (∀ m, (f = .connectFail m ∨ f = .execFail m) →
        (check_database_integrity f).1 = errTag ++ m ∧
        errTag <+: (check_database_integrity f).1) ∧
    (∀ db, f = .ok db → ¬ errTag <+: db.integrityResult →
        ¬ errTag <+: (check_database_integrity f).1) := by
  refine ⟨?_, ?_, ?_, ?_⟩
  · rintro db rfl
    rfl
  · rintro db rfl
    rfl
  · rintro m (rfl | rfl)
    · exact ⟨rfl, ⟨m, rfl⟩⟩
    · exact ⟨rfl, ⟨m, rfl⟩⟩
  · rintro db rfl h
    exact h

/-- Witness for C2 at a concrete passing database. -/
theorem check_database_integrity_classification_witness :
    (check_database_integrity (.ok sampleDb)).1 = "ok".toList :=
  ((check_database_integrity_classification (.ok sampleDb)).1 sampleDb
    rfl).mpr rfl

/-- A file whose first statement raises after a successful lazy connect. -/
def badFile : DbFile := .execFail ("file is not a database".toList)

/-- C4 counterexample: on a file whose first statement raises after a
successful connect, all four database-touching operations return with the
connection opened but never closed — the release is not guaranteed on the
error path. -/
theorem connection_leak_counterexample :
    (check_database_integrity badFile).2 = ⟨true, false⟩ ∧
    (get_database_info badFile).2 = ⟨true, false⟩ ∧
    (search_deleted_records badFile).2 = ⟨true, false⟩ ∧
    (export_table_data ⟨true, ["a".toList, "x.db".toList]⟩ badFile
      ("users".toList) ⟨true, ["out".toList]⟩).2 = ⟨true, false⟩ :=
  ⟨rfl, rfl, rfl, rfl⟩

/-- C4 amended: each of the four operations closes its connection exactly on
the exception-free path — `conn.close()` runs when the operation succeeds,
and is skipped whenever an exception fires between open and close (for
export, the close runs exactly when the export returned a path). -/
theorem connection_closed_iff_success (f : DbFile) (dbPath out : FsPath)
    (tname : Str) :
    ((check_database_integrity f).2.closed = true ↔ ∃ db, f = .ok db) ∧
    ((get_database_info f).2.closed = true ↔ ∃ db, f = .ok db) ∧
    ((search_deleted_records f).2.closed = true ↔ ∃ db, f = .ok db) ∧
    ((export_table_data dbPath f tname out).2.closed = true ↔
      ((export_table_data dbPath f tname out).1).isOk = true) ∧
    (∀ m, f = .execFail m → (check_database_integrity f).2 = ⟨true, false⟩) := by
  refine ⟨?_, ?_, ?_, ?_, ?_⟩
  · cases f <;> simp [check_database_integrity]
  · cases f <;> simp [get_database_info]
  · cases f <;> simp [search_deleted_records]
  · cases f with
    | ok db =>
        cases hf : db.tables.find? (fun t => t.name == tname) with
        | none => simp [export_table_data, hf, Except.isOk, Except.toBool]
        | some t =>
            cases htb : t.tblError with
            | none => simp [export_table_data, hf, htb, Except.isOk, Except.toBool]
            | some e => simp [export_table_data, hf, htb, Except.isOk, Except.toBool]
    | connectFail e => simp [export_table_data, Except.isOk, Except.toBool]
    | execFail e => simp [export_table_data, Except.isOk, Except.toBool]
  · rintro m rfl
    rfl

/-- Witness for the amended C4 at a concrete failing file. -/
theorem connection_closed_iff_success_witness :
    (check_database_integrity badFile).2 = ⟨true, false⟩ :=
  (connection_closed_iff_success badFile ⟨true, []⟩ ⟨true, []⟩
    []).2.2.2.2 ("file is not a database".toList) rfl

/-- Source file `a/x.db`. -/
def dbPathA : FsPath := ⟨true, ["a".toList, "x.db".toList]⟩

/-- Source file `b/x.db`: same base name, different source location. -/
def dbPathB : FsPath := ⟨true, ["b".toList, "x.db".toList]⟩

/-- A concrete export destination directory. -/
def outPath : FsPath := ⟨true, ["out".toList, "exported_data".toList]⟩

/-- C3 counterexample: the two distinct source files `a/x.db` and `b/x.db`
share the stem `x`, and exporting the table `users` from either writes the
very same output path `out/exported_data/x_users.csv` — the exports collide
instead of landing in distinct files. -/
theorem export_collision_counterexample :
    dbPathA ≠ dbPathB ∧
    stemOf (fileNameOf dbPathA) = stemOf (fileNameOf dbPathB) ∧
    (export_table_data dbPathA (.ok sampleDb) ("users".toList) outPath).1 =
      (export_table_data dbPathB (.ok sampleDb) ("users".toList) outPath).1 ∧
    ((export_table_data dbPathA (.ok sampleDb) ("users".toList) outPath).1).map
        (fun c => c.path) =
      .ok ⟨true, ["out".toList, "exported_data".toList,
                  "x_users.csv".toList]⟩ := by
  refine ⟨by decide, rfl, rfl, rfl⟩

/-- Anatomy of a successful export: the written path is
`out / (stem ++ "_" ++ table ++ ".csv")` and the rows are the column-name
header followed by every data row of the found table. -/
theorem export_ok_spec (dbPath : FsPath) (f : DbFile) (tname : Str)
    (out : FsPath) (c : CsvFile)
    (h : (export_table_data dbPath f tname out).1 = .ok c) :
    c.path = exportCsvPath dbPath tname out ∧
    ∃ db t, f = .ok db ∧
      db.tables.find? (fun t' => t'.name == tname) = some t ∧
      t.tblError = none ∧
      c.rows = (t.columns.map (fun col => col.name)) :: t.rows := by
  cases f with
  | connectFail e => simp [export_table_data] at h
  | execFail e => simp [export_table_data] at h
  | ok db =>
      cases hf : db.tables.find? (fun t' => t'.name == tname) with
      | none => simp [export_table_data, hf] at h
      | some t =>
          cases htb : t.tblError with
          | some e => simp [export_table_data, hf, htb] at h
          | none =>
              simp only [export_table_data, hf, htb, Except.ok.injEq] at h
              subst h
              exact ⟨rfl, db, t, rfl, hf, htb, rfl⟩

/-- C3 amended: the output path of `export_table_data` is determined by the
source file's stem and the table name alone, so two source files with the
same stem write the SAME path for the same table — the later export
overwrites the earlier instead of producing distinct files. -/
theorem export_path_determined_by_stem (p1 p2 out : FsPath) (t : Str)
    (hstem : stemOf (fileNameOf p1) = stemOf (fileNameOf p2)) :
    exportCsvPath p1 t out = exportCsvPath p2 t out ∧
    ∀ f1 f2 c1 c2, (export_table_data p1 f1 t out).1 = .ok c1 →
      (export_table_data p2 f2 t out).1 = .ok c2 → c1.path = c2.path := by
  have hp : exportCsvPath p1 t out = exportCsvPath p2 t out := by
    rw [exportCsvPath, exportCsvPath, csvFileName, csvFileName, hstem]
  refine ⟨hp, ?_⟩
  intro f1 f2 c1 c2 h1 h2
  rw [(export_ok_spec _ _ _ _ _ h1).1, (export_ok_spec _ _ _ _ _ h2).1, hp]

/-- Witness for the amended C3 at the concrete colliding inputs. -/
theorem export_path_determined_by_stem_witness :
    exportCsvPath dbPathA ("users".toList) outPath =
      exportCsvPath dbPathB ("users".toList) outPath :=
  (export_path_determined_by_stem dbPathA dbPathB outPath
    ("users".toList) rfl).1

/-- **C6**: for every table successfully exported by `export_table_data`,
the first CSV row is the header holding the column names in declared order
(present even for a zero-row table), and the number of data rows equals the
`row_count` that `get_database_info` reports for that table over the same
unchanged database. -/
theorem export_header_and_rowcount (dbPath out : FsPath) (db : Database)
    (t : Table) (tname : Str) (c : CsvFile)
    (hf : db.tables.find? (fun t' => t'.name == tname) = some t)
    (hexp : (export_table_data dbPath (.ok db) tname out).1 = .ok c) :
    c.rows.head? = some (t.columns.map (fun col => col.name)) ∧
    c.rows.length = t.rows.length + 1 ∧
    ∀ i, (get_database_info (.ok db)).1 = .ok i →
      (t.name, TableInfo.info (c.rows.length - 1) t.columns) ∈ i.tables_info := by
  obtain ⟨hpath, db', t', hdb, hf', htb, hrows⟩ := export_ok_spec _ _ _ _ _ hexp
  injection hdb with hdb'
  subst hdb'
  rw [hf] at hf'
  injection hf' with ht'
  subst ht'
  refine ⟨by rw [hrows]; rfl, by rw [hrows]; rfl, ?_⟩
  intro i hi
  simp only [get_database_info, Except.ok.injEq] at hi
  subst hi
  have hmem : t ∈ db.tables := List.mem_of_find?_eq_some hf
  have hcount : c.rows.length - 1 = t.rows.length := by
    rw [hrows]
    rfl
  have hinfo : tableInfoOf t = .info t.rows.length t.columns := by
    rw [tableInfoOf, htb]
  rw [hcount, ← hinfo]
  exact List.mem_map_of_mem (fun tb => (tb.name, tableInfoOf tb)) hmem

/-- The CSV written for `users` out of the sample database. -/
def sampleCsv : CsvFile :=
  ((export_table_data dbPathA (.ok sampleDb) ("users".toList)
    outPath).1).toOption.getD ⟨⟨true, []⟩, []⟩

/-- Witness for C6 at the concrete sample export: a 3-row table gives one
header row plus three data rows. -/
theorem export_header_and_rowcount_witness :
    sampleCsv.rows.head? = some (sampleCols.map (fun col => col.name)) ∧
    sampleCsv.rows.length = sampleTable.rows.length + 1 := by
  have h := export_header_and_rowcount dbPathA outPath sampleDb sampleTable
    ("users".toList) sampleCsv (by decide) rfl
  exact ⟨h.1, h.2.1⟩

/-- **C8**: `get_file_metadata` leaves the `filepath.stat()` call unguarded,
so a stat failure propagates as an exception out of metadata collection,
out of `analyze_database`, and is caught only by the per-file handler of
`generate_report`, which records the whole artifact as a single error entry
— no partial identity record survives.  A hash-read failure, by contrast,
leaves metadata collection successful and is recorded in place as an error
string inside the hash fields. -/
theorem stat_failure_is_terminal (digest : DigestFn) (run : Run)
    (e1 e2 : Entry) (m1 m2 : Str) (st : Stat)
    (h1 : e1.statRes = .error m1)
    (h2 : e2.statRes = .ok st) (h3 : e2.readRes = .error m2) :
    get_file_metadata digest run e1 = .error m1 ∧
    analyze_database digest run e1 = .error m1 ∧
    analyzeEntry digest run e1 = .err m1 ∧
    (∀ rep, (generate_report digest run).1 = some rep →
      e1 ∈ find_sqlitedb_files run →
      (pathOf run e1, DbEntry.err m1) ∈ rep.databases) ∧
    (∃ md, get_file_metadata digest run e2 = .ok md ∧
      md.md5 = errTag ++ m2 ∧ md.sha1 = errTag ++ m2 ∧
      md.sha256 = errTag ++ m2 ∧ md.size_bytes = st.size) := by
  have hmeta : get_file_metadata digest run e1 = .error m1 := by
    rw [get_file_metadata, h1]
  have hana : analyze_database digest run e1 = .error m1 := by
    rw [analyze_database, hmeta]
  have hent : analyzeEntry digest run e1 = .err m1 := by
    rw [analyzeEntry, hana]
  refine ⟨hmeta, hana, hent, ?_, ?_⟩
  · intro rep hrep hmem
    by_cases hE : (find_sqlitedb_files run).isEmpty
    · simp [generate_report, hE] at hrep
    · simp only [generate_report, hE, Bool.false_eq_true, if_false] at hrep
      injection hrep with hrep
      rw [← hrep]
      rw [← hent]
      exact List.mem_map_of_mem
        (fun e => (pathOf run e, analyzeEntry digest run e)) hmem
  · rw [get_file_metadata, h2]
    refine ⟨_, rfl, ?_, ?_, ?_, rfl⟩ <;> rw [h3] <;> rfl

/-- An entry whose `stat()` raises (the file vanished after discovery). -/
def badStatEntry : Entry :=
  ⟨["gone.sqlite".toList], .error ("stat failed".toList),
   .error ("read failed".toList), .connectFail ("unable to open".toList)⟩

/-- An entry whose stat succeeds but whose content read raises. -/
def badReadEntry : Entry :=
  ⟨["locked.db".toList], .ok sampleStat,
   .error ("read failed".toList), .ok sampleDb⟩

/-- A run holding the two failing entries. -/
def mixedRun : Run :=
  ⟨⟨true, ["evidence".toList]⟩, ⟨true, ["out".toList]⟩,
   "2025-11-07 12:00:00".toList, [badStatEntry, badReadEntry]⟩

/-- Witness for C8 at the concrete failing entries. -/
theorem stat_failure_is_terminal_witness :
    analyzeEntry zeroDigest mixedRun badStatEntry =
      .err ("stat failed".toList) :=
  (stat_failure_is_terminal zeroDigest mixedRun badStatEntry badReadEntry
    ("stat failed".toList) ("read failed".toList) sampleStat
    rfl rfl rfl).2.2.1

/-- **C10**: when the Discovery Walker finds zero matching files,
`generate_report` returns without building a run report and without writing
any output — no JSON snapshot and no narrative text file. -/
theorem empty_discovery_writes_nothing (digest : DigestFn) (run : Run)
    (h : find_sqlitedb_files run = []) :
    generate_report digest run = (none, []) := by
  simp [generate_report, h]

/-- A run whose only entry matches none of the four patterns. -/
def textOnlyRun : Run :=
  ⟨⟨true, ["evidence".toList]⟩, ⟨true, ["out".toList]⟩,
   "2025-11-07 12:00:00".toList,
   [⟨["notes.txt".toList], .ok sampleStat, .ok [],
     .connectFail ("not a database".toList)⟩]⟩

/-- Witness for C10 at a concrete run containing only a text file. -/
theorem empty_discovery_writes_nothing_witness :
    generate_report zeroDigest textOnlyRun = (none, []) :=
  empty_discovery_writes_nothing zeroDigest textOnlyRun (by decide)

/-- No two distinct pattern suffixes nest in one another. -/
theorem patternSuffixes_not_nested :
    ∀ s ∈ patternSuffixes, ∀ t ∈ patternSuffixes, s ≠ t → ¬ s <:+ t := by
  decide

/-- No file name matches two distinct patterns: both suffixes would end the
same name, so one would nest in the other. -/
theorem matchesPattern_unique (s t : Str) (hs : s ∈ patternSuffixes)
    (ht : t ∈ patternSuffixes) (hne : s ≠ t) (name : Str) :
    ¬ (matchesPattern s name = true ∧ matchesPattern t name = true) := by
  rintro ⟨h1, h2⟩
  rw [matchesPattern, List.isSuffixOf_iff_suffix] at h1 h2
  rcases List.suffix_or_suffix_of_suffix h1 h2 with h | h
  · exact patternSuffixes_not_nested s hs t ht hne h
  · exact patternSuffixes_not_nested t ht s hs (Ne.symm hne) h

/-- For two distinct patterns, the filtered entry lists share no relative
path. -/
theorem filtered_rels_disjoint (run : Run) (s t : Str)
    (hs : s ∈ patternSuffixes) (ht : t ∈ patternSuffixes) (hne : s ≠ t) :
    List.Disjoint
      ((run.entries.filter (fun e => matchesPattern s (lastName e.rel))).map
        (fun e => e.rel))
      ((run.entries.filter (fun e => matchesPattern t (lastName e.rel))).map
        (fun e => e.rel)) := by
  intro r hr1 hr2
  rw [List.mem_map] at hr1 hr2
  obtain ⟨e1, he1, hre1⟩ := hr1
  obtain ⟨e2, he2, hre2⟩ := hr2
  rw [List.mem_filter] at he1 he2
  have hname : lastName e1.rel = lastName e2.rel := by
    rw [hre1, hre2]
  refine matchesPattern_unique s t hs ht hne (lastName e1.rel) ⟨he1.2, ?_⟩
  rw [hname]
  exact he2.2

/-- When the scanned tree holds pairwise distinct relative paths, the
discovery result has pairwise distinct relative paths: each per-pattern
filter is a sublist of the tree, and distinct patterns select disjoint
entries. -/
theorem find_rels_nodup (run : Run)
    (h : (run.entries.map (fun e => e.rel)).Nodup) :
    ((find_sqlitedb_files run).map (fun e => e.rel)).Nodup := by
  rw [find_sqlitedb_files, List.map_flatMap, List.nodup_flatMap]
  constructor
  · intro pat _
    exact ((List.filter_sublist _).map _).nodup h
  · have hpair : patternSuffixes.Pairwise (fun s t => s ≠ t) := by decide
    exact hpair.imp_of_mem
      (fun ha hb hne => filtered_rels_disjoint run _ _ ha hb hne)

/-- Joining with a fixed root is injective on relative paths. -/
theorem joinRel_inj (run : Run) : ∀ r1 r2 : List Str,
    joinRel run.root r1 = joinRel run.root r2 → r1 = r2 := by
  intro r1 r2 h
  rw [joinRel, joinRel, FsPath.mk.injEq] at h
  exact List.append_cancel_left h.2

/-- The paths the Discovery Walker returns are pairwise distinct. -/
theorem findPaths_nodup (run : Run)
    (h : (run.entries.map (fun e => e.rel)).Nodup) :
    (findPaths run).Nodup := by
  have hrels := find_rels_nodup run h
  have hmaps : findPaths run
      = ((find_sqlitedb_files run).map (fun e => e.rel)).map
          (joinRel run.root) := by
    rw [findPaths, List.map_map]
    rfl
  rw [hmaps]
  exact hrels.map (fun a b => joinRel_inj run a b)

/-- A run over the relative root `evidence` containing one `users.db`. -/
def relRun : Run :=
  ⟨⟨false, ["evidence".toList]⟩, ⟨true, ["out".toList]⟩,
   "2025-11-07 12:00:00".toList,
   [⟨["users.db".toList], .ok sampleStat, .ok [], .ok sampleDb⟩]⟩

/-- C7 counterexample: scanning the relative root `evidence` makes
`find_sqlitedb_files` return the relative path `evidence/users.db`, so the
returned sequence is not a sequence of absolute paths. -/
theorem findPaths_not_absolute_counterexample :
    findPaths relRun = [⟨false, ["evidence".toList, "users.db".toList]⟩] ∧
    (⟨false, ["evidence".toList, "users.db".toList]⟩ : FsPath) ∈
      findPaths relRun ∧
    (FsPath.mk false ["evidence".toList, "users.db".toList]).isAbs = false := by
  refine ⟨by decide, by decide, rfl⟩

/-- C7 amended: `find_sqlitedb_files` returns a deduplicated ordered
sequence of paths — no path occurs twice — and each returned path is the
scanned root joined with the match's relative location, hence absolute
exactly when the input root is absolute (relative when the root is
relative). -/
theorem findPaths_nodup_and_root_abs (run : Run)
    (h : (run.entries.map (fun e => e.rel)).Nodup) :
    (findPaths run).Nodup ∧
    ∀ p ∈ findPaths run, p.isAbs = run.root.isAbs := by
  refine ⟨findPaths_nodup run h, ?_⟩
  intro p hp
  rw [findPaths, List.mem_map] at hp
  obtain ⟨e, _, hpe⟩ := hp
  rw [← hpe]
  rfl

/-- Witness for the amended C7 at the concrete sample run. -/
theorem findPaths_nodup_and_root_abs_witness :
    (findPaths sampleRun).Nodup ∧
    ∀ p ∈ findPaths sampleRun, p.isAbs = sampleRun.root.isAbs :=
  findPaths_nodup_and_root_abs sampleRun (by decide)

/-- **C1**: whenever `generate_report` builds a run report, the `databases`
mapping holds exactly one entry per path returned by the Discovery Walker,
keyed in discovery order — no discovered path is dropped and none appears
twice. -/
theorem report_one_entry_per_discovered_path (digest : DigestFn) (run : Run)
    (rep : FullReport)
    (h : (run.entries.map (fun e => e.rel)).Nodup)
    (hrep : (generate_report digest run).1 = some rep) :
    rep.databases.map Prod.fst = findPaths run ∧
    (rep.databases.map Prod.fst).Nodup ∧
    ∀ p ∈ findPaths run, (rep.databases.map Prod.fst).count p = 1 := by
  by_cases hE : (find_sqlitedb_files run).isEmpty
  · simp [generate_report, hE] at hrep
  · simp only [generate_report, hE, Bool.false_eq_true, if_false] at hrep
    injection hrep with hrep
    have hkeys : rep.databases.map Prod.fst = findPaths run := by
      rw [← hrep, List.map_map]
      rfl
    refine ⟨hkeys, ?_, ?_⟩
    · rw [hkeys]
      exact findPaths_nodup run h
    · intro p hp
      rw [hkeys]
      exact List.count_eq_one_of_mem (findPaths_nodup run h) hp

/-- The report built over the sample run. -/
def sampleReport : FullReport :=
  ((generate_report zeroDigest sampleRun).1).getD
    ⟨[], ⟨true, []⟩, ⟨true, []⟩, 0, []⟩

/-- Witness for C1 at the concrete sample run. -/
theorem report_one_entry_per_discovered_path_witness :
    sampleReport.databases.map Prod.fst = findPaths sampleRun ∧
    (sampleReport.databases.map Prod.fst).Nodup := by
  have h := report_one_entry_per_discovered_path zeroDigest sampleRun
    sampleReport (by decide) (by rfl)
  exact ⟨h.1, h.2.1⟩
